import Mathlib

/-!
A shallow embedding of `graph_times.py`, a command-line utility that parses
benchmark output lines of the form `LABEL SPEED: TIME_MS ...` and renders one
line plot per distinct label, either interactively (stdin input) or to a
`<stem>.png` file (file-argument input).

Strings are modelled as `List Char`; each Python primitive the script uses
(`str.replace(':', '')`, `str.split(' ')`, `int(...)`, `os.path.basename`,
`os.path.splitext`) gets its own definition, followed by the script's three
stages: argument dispatch, the parse/aggregate loop, and the renderer.
-/

namespace GraphTimes

/-- Characters of a string literal, the working representation of Python strings. -/
def strL (s : String) : List Char := s.data

/-- Model of `line.replace(':', '')`: every colon character is removed. -/
def removeColons (s : List Char) : List Char := s.filter (fun c => c ≠ ':')

/-- Model of Python `s.split(' ')` with an explicit separator: the string is cut
at every single space character, so `""` yields `[""]` and consecutive spaces
yield empty tokens. -/
def splitSp : List Char → List (List Char)
  | [] => [[]]
  | c :: rest =>
    if c = ' ' then [] :: splitSp rest
    else
      match splitSp rest with
      | [] => [[c]]
      | t :: ts => (c :: t) :: ts

/-- Helper for the digit grammar of Python `int`: after an initial digit, the
remaining characters are digits with single underscores allowed only between
digits. -/
def digRest : List Char → Bool
  | [] => true
  | ['_'] => false
  | '_' :: c :: cs => c.isDigit && digRest cs
  | c :: cs => c.isDigit && digRest cs

/-- Digit grammar of Python `int`: nonempty, starts with a digit, underscores
single and surrounded by digits. -/
def intDigitsOK : List Char → Bool
  | [] => false
  | c :: cs => c.isDigit && digRest cs

/-- Numeric value of a digit string, underscores already removed. -/
def digitsVal (ds : List Char) : Nat :=
  ds.foldl (fun a c => 10 * a + (c.toNat - '0'.toNat)) 0

/-- Digit run with underscores stripped, parsed as a natural number when the
grammar accepts it. -/
def pyUnsDigits (s : List Char) : Option Nat :=
  if intDigitsOK s then some (digitsVal (s.filter (fun c => c ≠ '_'))) else none

/-- Both-ends whitespace strip, as Python `int` applies before parsing. -/
def pyStrip (s : List Char) : List Char :=
  ((s.dropWhile Char.isWhitespace).reverse.dropWhile Char.isWhitespace).reverse

/-- Model of Python `int(s)` for base-10 text: surrounding whitespace is
ignored, an optional sign precedes the digits, and invalid text raises
(here: `none`). -/
def pyInt (s : List Char) : Option Int :=
  match pyStrip s with
  | '+' :: rest => (pyUnsDigits rest).map Int.ofNat
  | '-' :: rest => (pyUnsDigits rest).map (fun n => -(n : Int))
  | rest => (pyUnsDigits rest).map Int.ofNat

/-- One iteration of the parse loop, lines 36-38 of the script:
`line = line.replace(':', '')`, then
`label, speed, time_ms, *_ = line.split(' ')` (a `ValueError` — `none` — when
fewer than three tokens result), then `(int(speed), int(time_ms))` (again
`none` on invalid integer text). -/
def parseLine (line : List Char) : Option (List Char × Int × Int) :=
  let stripped := removeColons line
  match splitSp stripped with
  | label :: speed :: time_ms :: _ =>
    match pyInt speed, pyInt time_ms with
    | some s, some t => some (label, s, t)
    | _, _ => none
  | _ => none

/-- The aggregated mapping `data`: association list from label to its series,
in key insertion order, mirroring a Python dict built with `setdefault`. -/
abbrev Dataset := List (List Char × List (Int × Int))

/-- Model of `data.setdefault(label, []).append((s, t))`: an existing key keeps
its position and gets the sample appended; a new key is appended at the end
with a one-sample series. -/
def appendSample : Dataset → List Char → Int × Int → Dataset
  | [], l, s => [(l, [s])]
  | (k, ser) :: rest, l, s =>
    if k = l then (k, ser ++ [s]) :: rest
    else (k, ser) :: appendSample rest l s

/-- The parse loop over all input lines, threading the accumulated dataset;
the first malformed line aborts the whole run (the Python exception propagates
to the top level), so no partial dataset survives. -/
def parseData : List (List Char) → Dataset → Option Dataset
  | [], d => some d
  | line :: rest, d =>
    match parseLine line with
    | some (l, s, t) => parseData rest (appendSample d l (s, t))
    | none => none

/-- Whole-input parse starting from the empty dict of line 34. -/
def parseAll (lines : List (List Char)) : Option Dataset := parseData lines []

/-- Model of `os.path.basename` on POSIX paths: the part after the last slash. -/
def basename (p : List Char) : List Char :=
  ((p.reverse.takeWhile (fun c => c ≠ '/')).reverse)

/-- Model of `os.path.splitext` applied to a basename: split at the last dot,
except that a run of leading dots never starts an extension (so `".bashrc"`
keeps its dot in the root). -/
def splitext (p : List Char) : List Char × List Char :=
  let rev := p.reverse
  let extRev := rev.takeWhile (fun c => c ≠ '.')
  if extRev.length = p.length then (p, [])
  else
    let root := (rev.drop (extRev.length + 1)).reverse
    if root.all (fun c => c = '.') then (p, [])
    else (root, '.' :: extRev.reverse)

/-- Lines 25-27 of the script: the output image path is the basename of the
input path with its extension replaced by `.png`. -/
def outputName (p : String) : List Char :=
  (splitext (basename (strL p))).1 ++ strL ".png"

/-- Where the parse loop reads from: the named file or the stdin stream. -/
inductive InputSrc
  | fromFile (path : String)
  | fromStdin
deriving DecidableEq

/-- The outcome of the argument dispatch at lines 16-31: either print usage and
exit, or run with a chosen input source and optional output file. -/
inductive Resolved
  | usageExit
  | run (src : InputSrc) (outFile : Option (List Char))
deriving DecidableEq

/-- Exit status of the usage branch, `sys.exit(1)`. -/
def usageExitCode : Nat := 1

/-- Lines 16-31 of the script, with `argv` the full `sys.argv` (program name at
index 0): usage-and-exit when more than two entries, or exactly two with
`argv[1] == "--help"`; otherwise a single argument names the input file and
derives the `.png` output path; otherwise input is stdin with no output file. -/
def resolve (argv : List String) : Resolved :=
  if 2 < argv.length ∨ (argv.length = 2 ∧ argv.get? 1 = some "--help") then
    Resolved.usageExit
  else if argv.length = 2 then
    Resolved.run (InputSrc.fromFile ((argv.get? 1).getD ""))
      (some (outputName ((argv.get? 1).getD "")))
  else
    Resolved.run InputSrc.fromStdin none

/-- Lines 54-57 of the script: show the window when no output file was derived,
otherwise save the figure to that path. -/
inductive FinalAction
  | showWindow
  | savePng (path : List Char)
deriving DecidableEq

/-- Selection between `plt.show()` and `plt.savefig(output_file)`. -/
def finalAction : Option (List Char) → FinalAction
  | none => FinalAction.showWindow
  | some p => FinalAction.savePng p

/-- One curve drawn by `ax.plot(x, y, marker='o', label=label, color=color)`;
the color is the index into the `n` rainbow samples of line 44. -/
structure PlotLine where
  x : List Int
  y : List Int
  marker : Char
  label : List Char
  color : Nat
deriving DecidableEq

/-- One subplot: the curves drawn on it plus its axis labels and legend flag. -/
structure Axes where
  plots : List PlotLine
  xlabel : List Char
  ylabel : List Char
  legendOn : Bool
deriving DecidableEq

/-- A fresh subplot as `plt.subplots` hands it out. -/
def defaultAxes : Axes := ⟨[], [], [], false⟩

/-- The figure geometry chosen at line 40. -/
structure Figure where
  nrows : Nat
  ncols : Nat
  width : Nat
  height : Nat
deriving DecidableEq

/-- What `plt.subplots(nrows, ncols, ...)` returns in its second component:
a bare `Axes` when the grid squeezes to a single cell, an array otherwise. -/
inductive AxArray
  | single (ax : Axes)
  | many (axs : List Axes)
deriving DecidableEq

/-- Model of `plt.subplots(nrows, ncols, figsize=(w, h))`. -/
def pltSubplots (nrows ncols w h : Nat) : Figure × AxArray :=
  (⟨nrows, ncols, w, h⟩,
   if nrows * ncols = 1 then AxArray.single defaultAxes
   else AxArray.many (List.replicate (nrows * ncols) defaultAxes))

/-- Lines 41-42 of the script: when `len(data) == 1` the bare axes object is
wrapped in a one-element list so the later per-subplot loops are uniform. -/
def wrapAxs : AxArray → List Axes
  | AxArray.single ax => [ax]
  | AxArray.many axs => axs

/-- Model of `x, y = zip(*series)` at line 46: unzipping fails on an empty
series (nothing to unpack), otherwise yields the speed and time sequences in
order. -/
def zipStar (series : List (Int × Int)) : Option (List Int × List Int) :=
  match series with
  | [] => none
  | _ => some (series.map Prod.fst, series.map Prod.snd)

/-- Line 47: draw one labelled, colored curve with circular markers on an axes. -/
def plotOn (ax : Axes) (label : List Char) (series : List (Int × Int)) (c : Nat) :
    Option Axes :=
  (zipStar series).map fun xy =>
    { ax with plots := ax.plots ++ [⟨xy.1, xy.2, 'o', label, c⟩] }

/-- The plotting loop of lines 45-47 over the zipped
(axes, dict item, color) triples. -/
def plotLoop : List (Axes × ((List Char × List (Int × Int)) × Nat)) → Option (List Axes)
  | [] => some []
  | (ax, kv, c) :: rest =>
    match plotOn ax kv.1 kv.2 c with
    | some ax2 =>
      match plotLoop rest with
      | some axs => some (ax2 :: axs)
      | none => none
    | none => none

/-- Lines 49-52: every subplot gets the fixed axis labels and a legend. -/
def setAxisLabels (ax : Axes) : Axes :=
  { ax with xlabel := strL "speed level", ylabel := strL "time (ms)", legendOn := true }

/-- The renderer, lines 40-52 of the script: one row of `len(data)` subplots in
a figure of width `6 * len(data)` and height `4`; the dict items are plotted
onto the subplots paired with the `len(data)` rainbow color samples, and every
subplot is then labelled. -/
def render (data : Dataset) : Option (Figure × List Axes) :=
  let n := data.length
  let fa := pltSubplots 1 n (6 * n) 4
  let axs := wrapAxs fa.2
  let colors := List.range n
  (plotLoop (axs.zip (data.zip colors))).map
    fun plotted => (fa.1, plotted.map setAxisLabels)

/-! Derived views of the dataset and of the input lines, used to state what the
parse loop builds. -/

/-- The dict keys in insertion order. -/
def keys (d : Dataset) : List (List Char) := d.map Prod.fst

/-- Dict lookup on the association list. -/
def lookupSer : List Char → Dataset → Option (List (Int × Int))
  | _, [] => none
  | l, (k, ser) :: rest => if k = l then some ser else lookupSer l rest

/-- The label a well-formed line carries (token 0 after colon strip and split);
arbitrary on malformed lines. -/
def lineLabel (l : List Char) : List Char :=
  match parseLine l with
  | some r => r.1
  | none => []

/-- The sample a well-formed line carries; arbitrary on malformed lines. -/
def lineSample (l : List Char) : Int × Int :=
  match parseLine l with
  | some r => r.2
  | none => (0, 0)

/-- First-seen deduplication of a label sequence: the order dict keys acquire. -/
def firstSeen (ls : List (List Char)) : List (List Char) :=
  ls.foldl (fun acc x => if x ∈ acc then acc else acc ++ [x]) []

/-- The samples of all lines bearing a given label, in encounter order. -/
def samplesFor (L : List Char) (lines : List (List Char)) : List (Int × Int) :=
  (lines.filter (fun l => lineLabel l = L)).map lineSample

/-- A line the parse loop dies on: fewer than three tokens after colon strip
and split, or a speed or time token `int` rejects. -/
def malformedLine (l : List Char) : Bool :=
  match splitSp (removeColons l) with
  | _ :: spd :: tim :: _ => (pyInt spd).isNone || (pyInt tim).isNone
  | _ => true

/-- Folding the per-line dict update over the input, the total function the
parse loop computes on well-formed input. -/
def foldSamples (d : Dataset) (lines : List (List Char)) : Dataset :=
  lines.foldl (fun acc l => appendSample acc (lineLabel l) (lineSample l)) d

lemma keys_appendSample (d : Dataset) (l : List Char) (s : Int × Int) :
    keys (appendSample d l s) = if l ∈ keys d then keys d else keys d ++ [l] := by
  induction d with
  | nil => simp [appendSample, keys]
  | cons kv rest ih =>
    obtain ⟨k, ser⟩ := kv
    by_cases hkl : k = l
    · subst hkl
      simp [appendSample, keys]
    · simp only [appendSample, if_neg hkl, keys, List.map_cons, List.mem_cons]
      simp only [keys] at ih
      rw [ih]
      by_cases hmem : l ∈ rest.map Prod.fst
      · simp [hmem, Ne.symm hkl]
      · simp [hmem, Ne.symm hkl]

lemma lookupSer_appendSample (d : Dataset) (l l' : List Char) (s : Int × Int) :
    lookupSer l' (appendSample d l s) =
      if l' = l then some ((lookupSer l d).getD [] ++ [s]) else lookupSer l' d := by
  induction d with
  | nil =>
    by_cases h : l' = l
    · subst h; simp [appendSample, lookupSer]
    · simp [appendSample, lookupSer, Ne.symm h, h]
  | cons kv rest ih =>
    obtain ⟨k, ser⟩ := kv
    by_cases hkl : k = l
    · subst hkl
      by_cases h : l' = k
      · subst h; simp [appendSample, lookupSer]
      · simp [appendSample, lookupSer, Ne.symm h, h]
    · by_cases h : l' = l
      · subst h
        have hkl' : ¬ k = l' := hkl
        simp [appendSample, if_neg hkl, lookupSer, hkl', ih]
      · by_cases hk : k = l'
        · subst hk
          simp [appendSample, if_neg hkl, lookupSer, h]
        · simp [appendSample, if_neg hkl, lookupSer, hk, ih, h]

lemma parseData_wf (lines : List (List Char)) :
    ∀ d : Dataset, (∀ l ∈ lines, (parseLine l).isSome) →
      parseData lines d = some (foldSamples d lines) := by
  induction lines with
  | nil => intro d _; rfl
  | cons line rest ih =>
    intro d h
    have h0 : (parseLine line).isSome := h line (List.mem_cons_self _ _)
    obtain ⟨⟨l, s, t⟩, hr⟩ := Option.isSome_iff_exists.mp h0
    have hlab : lineLabel line = l := by simp [lineLabel, hr]
    have hsam : lineSample line = (s, t) := by simp [lineSample, hr]
    have hrec := ih (appendSample d l (s, t)) (fun x hx => h x (List.mem_cons_of_mem _ hx))
    simp only [parseData, hr, hrec, foldSamples, List.foldl_cons, hlab, hsam]

lemma parseData_none (lines : List (List Char)) :
    ∀ d : Dataset, (∃ l ∈ lines, parseLine l = none) → parseData lines d = none := by
  induction lines with
  | nil => intro d h; simp at h
  | cons line rest ih =>
    intro d h
    obtain ⟨l, hml, hl⟩ := h
    rcases hp : parseLine line with _ | r
    · simp [parseData, hp]
    · obtain ⟨lab, s, t⟩ := r
      have hlr : l ∈ rest := by
        rcases List.mem_cons.mp hml with h1 | h1
        · subst h1; rw [hp] at hl; exact absurd hl (by simp)
        · exact h1
      simp only [parseData, hp]
      exact ih _ ⟨l, hlr, hl⟩

lemma keys_foldSamples (lines : List (List Char)) :
    ∀ d : Dataset,
      keys (foldSamples d lines) =
        lines.foldl
          (fun acc l => if lineLabel l ∈ acc then acc else acc ++ [lineLabel l])
          (keys d) := by
  induction lines with
  | nil => intro d; rfl
  | cons line rest ih =>
    intro d
    have hfold : foldSamples d (line :: rest) =
        foldSamples (appendSample d (lineLabel line) (lineSample line)) rest := rfl
    rw [hfold, ih, List.foldl_cons, keys_appendSample]

lemma lookupSer_foldSamples (lines : List (List Char)) :
    ∀ (d : Dataset) (L : List Char),
      lookupSer L (foldSamples d lines) =
        if samplesFor L lines = [] then lookupSer L d
        else some ((lookupSer L d).getD [] ++ samplesFor L lines) := by
  induction lines with
  | nil => intro d L; simp [foldSamples, samplesFor]
  | cons line rest ih =>
    intro d L
    have hfold : foldSamples d (line :: rest) =
        foldSamples (appendSample d (lineLabel line) (lineSample line)) rest := rfl
    by_cases hl : lineLabel line = L
    · subst hl
      have hD : lookupSer (lineLabel line)
            (appendSample d (lineLabel line) (lineSample line)) =
          some ((lookupSer (lineLabel line) d).getD [] ++ [lineSample line]) := by
        rw [lookupSer_appendSample, if_pos rfl]
      have hsf : samplesFor (lineLabel line) (line :: rest) =
          lineSample line :: samplesFor (lineLabel line) rest := by
        simp [samplesFor, List.filter_cons]
      rw [hfold, ih, hD, hsf]
      by_cases h2 : samplesFor (lineLabel line) rest = [] <;>
        simp [h2, List.append_assoc]
    · have hD : lookupSer L (appendSample d (lineLabel line) (lineSample line)) =
          lookupSer L d := by
        rw [lookupSer_appendSample, if_neg (fun hLl => hl hLl.symm)]
      have hsf : samplesFor L (line :: rest) = samplesFor L rest := by
        simp [samplesFor, List.filter_cons, hl]
      rw [hfold, ih, hD, hsf]

lemma parseLine_none_iff (l : List Char) :
    parseLine l = none ↔ malformedLine l = true := by
  rcases htoks : splitSp (removeColons l) with _ | ⟨a, _ | ⟨b, _ | ⟨c, t3⟩⟩⟩ <;>
    (simp only [parseLine, malformedLine, htoks]; try simp)
  rcases hs : pyInt b with _ | s <;> rcases ht : pyInt c with _ | t <;> simp [hs, ht]

lemma mem_of_mem_splitSp (s : List Char) :
    ∀ t ∈ splitSp s, ∀ c ∈ t, c ∈ s := by
  induction s with
  | nil =>
    intro t ht c hc
    simp only [splitSp, List.mem_singleton] at ht
    subst ht; simp at hc
  | cons a rest ih =>
    intro t ht c hc
    by_cases ha : a = ' '
    · subst ha
      have hun : splitSp (' ' :: rest) = [] :: splitSp rest := by simp [splitSp]
      rw [hun] at ht
      rcases List.mem_cons.mp ht with h | h
      · subst h; simp at hc
      · exact List.mem_cons_of_mem _ (ih t h c hc)
    · rcases hsp : splitSp rest with _ | ⟨t0, ts⟩
      · have hun : splitSp (a :: rest) = [[a]] := by simp [splitSp, ha, hsp]
        rw [hun] at ht
        simp only [List.mem_singleton] at ht
        subst ht
        simp only [List.mem_singleton] at hc
        subst hc; exact List.mem_cons_self _ _
      · have hun : splitSp (a :: rest) = (a :: t0) :: ts := by simp [splitSp, ha, hsp]
        rw [hun] at ht
        rcases List.mem_cons.mp ht with h | h
        · subst h
          rcases List.mem_cons.mp hc with h1 | h1
          · subst h1; exact List.mem_cons_self _ _
          · exact List.mem_cons_of_mem _
              (ih t0 (by rw [hsp]; exact List.mem_cons_self _ _) c h1)
        · exact List.mem_cons_of_mem _
            (ih t (by rw [hsp]; exact List.mem_cons_of_mem _ h) c hc)

lemma parseLine_label_shape (line label : List Char) (s t : Int)
    (hp : parseLine line = some (label, s, t)) :
    label ∈ splitSp (removeColons line) := by
  rcases htoks : splitSp (removeColons line) with _ | ⟨a, _ | ⟨b, _ | ⟨c, t3⟩⟩⟩ <;>
      simp only [parseLine, htoks] at hp <;>
    try exact Option.noConfusion hp
  rcases hs : pyInt b with _ | sv <;> rcases ht : pyInt c with _ | tv <;>
    rw [hs, ht] at hp <;> simp at hp
  obtain ⟨h1, -, -⟩ := hp
  subst h1
  exact List.mem_cons_self _ _

lemma noColon_label (line label : List Char) (s t : Int)
    (hp : parseLine line = some (label, s, t)) : ':' ∉ label := by
  intro hmem
  have h1 : ':' ∈ removeColons line :=
    mem_of_mem_splitSp _ label (parseLine_label_shape line label s t hp) ':' hmem
  simp [removeColons, List.mem_filter] at h1

lemma noColon_parseData (lines : List (List Char)) :
    ∀ d d' : Dataset, (∀ k ∈ keys d, ':' ∉ k) → parseData lines d = some d' →
      ∀ k ∈ keys d', ':' ∉ k := by
  induction lines with
  | nil =>
    intro d d' hd hp
    simp only [parseData, Option.some_inj] at hp
    subst hp; exact hd
  | cons line rest ih =>
    intro d d' hd hp
    rcases hr : parseLine line with _ | ⟨lab, s, t⟩
    · rw [parseData, hr] at hp
      exact Option.noConfusion hp
    · rw [parseData, hr] at hp
      apply ih (appendSample d lab (s, t)) d' _ hp
      intro k hk
      rw [keys_appendSample] at hk
      by_cases hmem : lab ∈ keys d
      · rw [if_pos hmem] at hk; exact hd k hk
      · rw [if_neg hmem] at hk
        rcases List.mem_append.mp hk with h | h
        · exact hd k h
        · simp only [List.mem_singleton] at h
          subst h
          exact noColon_label line k s t hr

lemma plotLoop_total (l : List (Axes × ((List Char × List (Int × Int)) × Nat)))
    (h : ∀ e ∈ l, e.2.1.2 ≠ []) :
    ∃ axs, plotLoop l = some axs ∧ axs.length = l.length := by
  induction l with
  | nil => exact ⟨[], rfl, rfl⟩
  | cons e rest ih =>
    obtain ⟨ax, kv, c⟩ := e
    obtain ⟨lab, ser⟩ := kv
    obtain ⟨axs, hax, hlen⟩ := ih (fun x hx => h x (List.mem_cons_of_mem _ hx))
    have hne : ser ≠ [] := h (ax, (lab, ser), c) (List.mem_cons_self _ _)
    rcases ser with _ | ⟨p, ps⟩
    · exact absurd rfl hne
    · refine ⟨{ ax with plots := ax.plots ++
          [⟨(p :: ps).map Prod.fst, (p :: ps).map Prod.snd, 'o', lab, c⟩] } :: axs,
        ?_, by simp [hlen]⟩
      simp [plotLoop, plotOn, zipStar, hax]

lemma length_wrapAxs_pltSubplots (n w h : Nat) :
    (wrapAxs (pltSubplots 1 n w h).2).length = n := by
  by_cases hn : n = 1
  · subst hn; rfl
  · simp [pltSubplots, wrapAxs, hn]

/-- C1: for every input line the parse loop strips all colons, splits on single
spaces, takes token 0 as the label and tokens 1 and 2 as integer speed and
time, ignoring any further tokens; in particular `"alpha 3: 120"` yields the
sample `(3, 120)` under the label `"alpha"`. -/
theorem parse_line_tokens :
    (∀ (line lab spd tim : List Char) (rest : List (List Char)) (s t : Int),
      splitSp (removeColons line) = lab :: spd :: tim :: rest →
      pyInt spd = some s → pyInt tim = some t →
      parseLine line = some (lab, s, t)) ∧
    parseLine (strL "alpha 3: 120") = some (strL "alpha", 3, 120) ∧
    parseAll [strL "alpha 3: 120"] = some [(strL "alpha", [(3, 120)])] := by
  refine ⟨?_, by decide, by decide⟩
  intro line lab spd tim rest s t htoks hs ht
  simp only [parseLine, htoks, hs, ht]

/-- Closed instance of the C1 theorem at the line `"alpha 3: 120"`. -/
theorem parse_line_tokens_witness :
    (splitSp (removeColons (strL "alpha 3: 120")) =
        [strL "alpha", strL "3", strL "120"] ∧
      pyInt (strL "3") = some 3 ∧ pyInt (strL "120") = some 120) ∧
    parseLine (strL "alpha 3: 120") = some (strL "alpha", 3, 120) :=
  ⟨⟨by decide, by decide, by decide⟩,
   parse_line_tokens.1 (strL "alpha 3: 120") (strL "alpha") (strL "3") (strL "120")
     [] 3 120 (by decide) (by decide) (by decide)⟩

/-- C2: on well-formed input with at least one line, the dataset's keys are
exactly the labels in first-seen order, and each label's series is exactly the
ordered list of that label's samples (one per line bearing the label, no
deduplication, no sorting). -/
theorem parser_dataset_shape (lines : List (List Char)) (_hne : lines ≠ [])
    (hwf : ∀ l ∈ lines, (parseLine l).isSome) :
    ∃ d, parseAll lines = some d ∧
      keys d = firstSeen (lines.map lineLabel) ∧
      (∀ L, lookupSer L d =
        if samplesFor L lines = [] then none else some (samplesFor L lines)) ∧
      (∀ L, (samplesFor L lines).length =
        (lines.filter (fun l => lineLabel l = L)).length) := by
  refine ⟨foldSamples [] lines, parseData_wf lines [] hwf, ?_, ?_, ?_⟩
  · rw [keys_foldSamples]
    simp only [firstSeen, List.foldl_map]
    rfl
  · intro L
    rw [lookupSer_foldSamples]
    by_cases h : samplesFor L lines = [] <;> simp [h, lookupSer]
  · intro L
    simp [samplesFor]

/-- Closed instance of the C2 theorem on a three-line input with a repeated
label and a duplicated speed value. -/
theorem parser_dataset_shape_witness :
    (([strL "a 3: 10", strL "b 1: 5", strL "a 3: 7"] : List (List Char)) ≠ [] ∧
      (∀ l ∈ ([strL "a 3: 10", strL "b 1: 5", strL "a 3: 7"] : List (List Char)),
        (parseLine l).isSome)) ∧
    (∃ d, parseAll [strL "a 3: 10", strL "b 1: 5", strL "a 3: 7"] = some d ∧
      keys d =
        firstSeen (([strL "a 3: 10", strL "b 1: 5", strL "a 3: 7"]).map lineLabel) ∧
      (∀ L, lookupSer L d =
        if samplesFor L [strL "a 3: 10", strL "b 1: 5", strL "a 3: 7"] = [] then none
        else some (samplesFor L [strL "a 3: 10", strL "b 1: 5", strL "a 3: 7"])) ∧
      (∀ L, (samplesFor L [strL "a 3: 10", strL "b 1: 5", strL "a 3: 7"]).length =
        (([strL "a 3: 10", strL "b 1: 5", strL "a 3: 7"]).filter
          (fun l => lineLabel l = L)).length)) :=
  ⟨⟨by decide, by decide⟩,
   parser_dataset_shape [strL "a 3: 10", strL "b 1: 5", strL "a 3: 7"]
     (by decide) (by decide)⟩

/-- C3: an input containing a line with fewer than three tokens after colon
strip and split, or with a non-integer speed or time token, makes the whole
parse fail: no skipping, no partial dataset. -/
theorem malformed_line_fatal (lines : List (List Char))
    (h : ∃ l ∈ lines, malformedLine l = true) :
    parseAll lines = none := by
  obtain ⟨l, hl, hm⟩ := h
  exact parseData_none lines [] ⟨l, hl, (parseLine_none_iff l).mpr hm⟩

/-- Closed instance of the C3 theorem: a line missing the time field kills the
parse even though a later line is well-formed. -/
theorem malformed_line_fatal_witness :
    (∃ l ∈ ([strL "alpha 3", strL "beta 1: 2"] : List (List Char)),
      malformedLine l = true) ∧
    parseAll [strL "alpha 3", strL "beta 1: 2"] = none :=
  ⟨⟨strL "alpha 3", by decide, by decide⟩,
   malformed_line_fatal [strL "alpha 3", strL "beta 1: 2"]
     ⟨strL "alpha 3", by decide, by decide⟩⟩

/-- C4 counterexample: invoked with zero arguments (`sys.argv` holding only the
program name) the script does not print usage; it runs reading stdin. -/
theorem zero_args_no_usage_cex :
    resolve ["./graph_times.py"] = Resolved.run InputSrc.fromStdin none ∧
    resolve ["./graph_times.py"] ≠ Resolved.usageExit := by
  exact ⟨by decide, by decide⟩

/-- C4 amended: the usage-and-nonzero-exit branch is taken exactly for more
than one argument, or for the single argument `--help`; with zero arguments the
script instead reads stdin in interactive mode. -/
theorem usage_branch_condition :
    (∀ p : String, resolve [p] = Resolved.run InputSrc.fromStdin none) ∧
    (∀ (p a b : String) (more : List String),
      resolve (p :: a :: b :: more) = Resolved.usageExit) ∧
    (∀ p : String, resolve [p, "--help"] = Resolved.usageExit) ∧
    usageExitCode ≠ 0 := by
  refine ⟨fun p => rfl, fun p a b more => ?_, fun p => ?_, by decide⟩
  · have h3 : 2 < (p :: a :: b :: more).length := by
      simp only [List.length_cons]
      omega
    unfold resolve
    rw [if_pos (Or.inl h3)]
  · unfold resolve
    rw [if_pos (Or.inr ⟨rfl, rfl⟩)]

/-- C5 counterexample: `--help` as the only argument does take the help branch
(usage and exit); it is not treated as an input filename. -/
theorem lone_help_usage_cex :
    resolve ["./graph_times.py", "--help"] = Resolved.usageExit ∧
    resolve ["./graph_times.py", "--help"] ≠
      Resolved.run (InputSrc.fromFile "--help") (some (outputName "--help")) := by
  exact ⟨by decide, by decide⟩

/-- C5 amended: when `--help` is passed as the only command-line argument, the
help branch is taken — usage is printed and the process exits non-zero — and
the argument is not opened as a file. -/
theorem lone_help_triggers_usage :
    (∀ p : String, resolve [p, "--help"] = Resolved.usageExit) ∧
    usageExitCode ≠ 0 := by
  refine ⟨fun p => ?_, by decide⟩
  unfold resolve
  rw [if_pos (Or.inr ⟨rfl, rfl⟩)]

/-- C6: with zero arguments the script reads the standard input stream and the
output target is the interactive display: no output path is derived and the
final action is showing the window, not saving a file. -/
theorem stdin_interactive_display :
    ∀ p : String, resolve [p] = Resolved.run InputSrc.fromStdin none ∧
      finalAction none = FinalAction.showWindow ∧
      (∀ path, finalAction none ≠ FinalAction.savePng path) :=
  fun _ => ⟨rfl, rfl, fun _ h => FinalAction.noConfusion h⟩

/-- C7: with exactly one argument (other than `--help`) naming a file path,
the file is the input source and the output image path is the input's basename
with its extension replaced by `.png`; in particular `bench.txt` yields
`bench.png`, which the final action saves. -/
theorem file_arg_output_path (p0 p : String) (hp : p ≠ "--help") :
    resolve [p0, p] = Resolved.run (InputSrc.fromFile p) (some (outputName p)) ∧
    outputName "bench.txt" = strL "bench.png" ∧
    finalAction (some (outputName p)) = FinalAction.savePng (outputName p) := by
  refine ⟨?_, by decide, rfl⟩
  have hcond : ¬(2 < ([p0, p] : List String).length ∨
      (([p0, p] : List String).length = 2 ∧
        ([p0, p] : List String).get? 1 = some "--help")) := by
    simp [hp]
  unfold resolve
  rw [if_neg hcond]
  exact rfl

/-- Closed instance of the C7 theorem at the argument `bench.txt`. -/
theorem file_arg_output_path_witness :
    ("bench.txt" : String) ≠ "--help" ∧
    (resolve ["./graph_times.py", "bench.txt"] =
        Resolved.run (InputSrc.fromFile "bench.txt") (some (outputName "bench.txt")) ∧
      outputName "bench.txt" = strL "bench.png" ∧
      finalAction (some (outputName "bench.txt")) =
        FinalAction.savePng (outputName "bench.txt")) :=
  ⟨by decide, file_arg_output_path "./graph_times.py" "bench.txt" (by decide)⟩

/-- C8: a dataset with `N ≥ 1` labels (each with at least one sample, as the
parser guarantees) renders to a figure of exactly `N` subplots in a single row,
of width `6 * N` and height `4`; for `N = 1` the plotting library hands back a
bare subplot that the wrap makes a one-element list, and every subplot ends up
with x-label `"speed level"`, y-label `"time (ms)"` and a legend. -/
theorem renderer_layout (data : Dataset) (_h1 : 1 ≤ data.length)
    (h2 : ∀ e ∈ data, e.2 ≠ []) :
    ∃ fig axs, render data = some (fig, axs) ∧
      fig.nrows = 1 ∧ fig.ncols = data.length ∧
      fig.width = 6 * data.length ∧ fig.height = 4 ∧
      axs.length = data.length ∧
      (data.length = 1 →
        (pltSubplots 1 data.length (6 * data.length) 4).2 =
          AxArray.single defaultAxes) ∧
      (∀ ax ∈ axs, ax.xlabel = strL "speed level" ∧
        ax.ylabel = strL "time (ms)" ∧ ax.legendOn = true) := by
  have hall : ∀ e ∈ (wrapAxs (pltSubplots 1 data.length
      (6 * data.length) 4).2).zip (data.zip (List.range data.length)),
      e.2.1.2 ≠ [] := by
    intro e he
    obtain ⟨ax, kvc⟩ := e
    obtain ⟨kv, c⟩ := kvc
    have hz := (List.of_mem_zip he).2
    exact h2 kv (List.of_mem_zip hz).1
  obtain ⟨plotted, hpl, hplen⟩ := plotLoop_total _ hall
  refine ⟨(pltSubplots 1 data.length (6 * data.length) 4).1,
    plotted.map setAxisLabels, ?_, rfl, rfl, rfl, rfl, ?_, ?_, ?_⟩
  · simp only [render]
    rw [hpl]
    rfl
  · rw [List.length_map, hplen, List.length_zip, List.length_zip,
      length_wrapAxs_pltSubplots, List.length_range]
    simp
  · intro h1
    rw [h1]
    rfl
  · intro ax hax
    obtain ⟨b, -, hb⟩ := List.mem_map.mp hax
    subst hb
    exact ⟨rfl, rfl, rfl⟩

/-- Closed instance of the C8 theorem on the two-label dataset produced by the
input lines `"a 1: 10"` and `"b 2: 20"`. -/
theorem renderer_layout_witness :
    (1 ≤ ([(strL "a", [((1 : Int), (10 : Int))]), (strL "b", [(2, 20)])] : Dataset).length ∧
      (∀ e ∈ ([(strL "a", [((1 : Int), (10 : Int))]), (strL "b", [(2, 20)])] : Dataset),
        e.2 ≠ [])) ∧
    (∃ fig axs,
      render [(strL "a", [((1 : Int), (10 : Int))]), (strL "b", [(2, 20)])] =
        some (fig, axs) ∧
      fig.nrows = 1 ∧
      fig.ncols =
        ([(strL "a", [((1 : Int), (10 : Int))]), (strL "b", [(2, 20)])] : Dataset).length ∧
      fig.width =
        6 * ([(strL "a", [((1 : Int), (10 : Int))]), (strL "b", [(2, 20)])] : Dataset).length ∧
      fig.height = 4 ∧
      axs.length =
        ([(strL "a", [((1 : Int), (10 : Int))]), (strL "b", [(2, 20)])] : Dataset).length ∧
      (([(strL "a", [((1 : Int), (10 : Int))]), (strL "b", [(2, 20)])] : Dataset).length = 1 →
        (pltSubplots 1
            ([(strL "a", [((1 : Int), (10 : Int))]), (strL "b", [(2, 20)])] : Dataset).length
            (6 * ([(strL "a", [((1 : Int), (10 : Int))]), (strL "b", [(2, 20)])] : Dataset).length)
            4).2 =
          AxArray.single defaultAxes) ∧
      (∀ ax ∈ axs, ax.xlabel = strL "speed level" ∧
        ax.ylabel = strL "time (ms)" ∧ ax.legendOn = true)) :=
  ⟨⟨by decide, by decide⟩,
   renderer_layout [(strL "a", [((1 : Int), (10 : Int))]), (strL "b", [(2, 20)])]
     (by decide) (by decide)⟩

/-- C9: colon removal happens before the label token is taken, so no dataset
key ever contains a colon, and the lines `"a:b 1: 2"` and `"ab 1: 3"`
accumulate under the single colon-stripped key `"ab"`. -/
theorem colon_free_keys (lines : List (List Char)) (d : Dataset)
    (h : parseAll lines = some d) :
    (∀ k ∈ keys d, ':' ∉ k) ∧
    parseAll [strL "a:b 1: 2", strL "ab 1: 3"] =
      some [(strL "ab", [(1, 2), (1, 3)])] := by
  refine ⟨?_, by decide⟩
  exact noColon_parseData lines [] d (by simp [keys]) h

/-- Closed instance of the C9 theorem on the colon-merging two-line input. -/
theorem colon_free_keys_witness :
    parseAll [strL "a:b 1: 2", strL "ab 1: 3"] =
      some [(strL "ab", [(1, 2), (1, 3)])] ∧
    ((∀ k ∈ keys [(strL "ab", [((1 : Int), (2 : Int)), (1, 3)])], ':' ∉ k) ∧
      parseAll [strL "a:b 1: 2", strL "ab 1: 3"] =
        some [(strL "ab", [(1, 2), (1, 3)])]) :=
  ⟨by decide,
   colon_free_keys [strL "a:b 1: 2", strL "ab 1: 3"]
     [(strL "ab", [(1, 2), (1, 3)])] (by decide)⟩

/-- C10: blank lines are not skipped: an empty line, or a line holding only a
newline, splits into a single token (fewer than three), so its presence
anywhere in the input makes the whole parse fail like any malformed line. -/
theorem blank_line_fatal (lines : List (List Char))
    (h : ([] : List Char) ∈ lines ∨ [('\n' : Char)] ∈ lines) :
    (splitSp (removeColons [])).length < 3 ∧
    (splitSp (removeColons ['\n'])).length < 3 ∧
    parseAll lines = none := by
  refine ⟨by decide, by decide, ?_⟩
  rcases h with h | h
  · exact parseData_none lines [] ⟨[], h, by decide⟩
  · exact parseData_none lines [] ⟨['\n'], h, by decide⟩

/-- Closed instance of the C10 theorem: an empty line after a well-formed line
still kills the whole parse. -/
theorem blank_line_fatal_witness :
    (([] : List Char) ∈ ([strL "a 1: 2", []] : List (List Char)) ∨
      [('\n' : Char)] ∈ ([strL "a 1: 2", []] : List (List Char))) ∧
    ((splitSp (removeColons [])).length < 3 ∧
      (splitSp (removeColons ['\n'])).length < 3 ∧
      parseAll [strL "a 1: 2", []] = none) :=
  ⟨Or.inl (by decide),
   blank_line_fatal [strL "a 1: 2", []] (Or.inl (by decide))⟩

end GraphTimes
